import Mathlib

/-!
# Verification of the clockify-cli core against its specification

Shallow embedding of the executable core of the `clockify-cli` repository:
the duration parser and input sanitizers (`src/lib/simple-config.ts`,
which bundles the config manager, the security utilities and `utils.ts`),
the API client's request pacing, response classification and the
`stopTimer` procedure (`src/lib/api.ts`), and the `login` flow of the auth
commands.  JavaScript strings are modelled as `List Char` / `String`,
JavaScript numbers used as integers as `Nat`, fallible code as `Except`,
and the HTTP side effects of a procedure as an explicit list of issued
calls.  `Math.round` on nonnegative decimal values is modelled in exact
arithmetic (`⌊x + 1/2⌋`), which is the round-half-up behaviour the code
relies on for the small decimal literals it accepts.
-/

namespace ClockifyCLI

/-! ## Character-level helpers (JS semantics) -/

/-- JS `\d` (regex digit): the ASCII digits. -/
def isDigitC (c : Char) : Bool := 48 ≤ c.toNat && c.toNat ≤ 57

/-- JS `\w` (regex word character): ASCII letters, digits and underscore. -/
def isWordC (c : Char) : Bool :=
  isDigitC c || (65 ≤ c.toNat && c.toNat ≤ 90) || (97 ≤ c.toNat && c.toNat ≤ 122) ||
    c.toNat = 95

/-- ASCII alphanumeric, the `/^[a-zA-Z0-9]+$/` class used for API keys. -/
def isAlnumC (c : Char) : Bool :=
  isDigitC c || (65 ≤ c.toNat && c.toNat ≤ 90) || (97 ≤ c.toNat && c.toNat ≤ 122)

/-- The characters JS `String.prototype.trim` (and regex `\s`) treat as
whitespace: ASCII whitespace, NBSP, BOM, and the Unicode space separators. -/
def isJsWsC (c : Char) : Bool :=
  let n := c.toNat
  (9 ≤ n && n ≤ 13) || n = 32 || n = 160 || n = 5760 ||
    (8192 ≤ n && n ≤ 8202) || n = 8232 || n = 8233 || n = 8239 || n = 8287 ||
    n = 12288 || n = 65279

/-- JS `String.prototype.toLowerCase`, restricted to the ASCII range the
code's patterns use. -/
def toLowerC (c : Char) : Char :=
  if 65 ≤ c.toNat && c.toNat ≤ 90 then Char.ofNat (c.toNat + 32) else c

/-- JS `String.prototype.trim`: drop leading and trailing whitespace. -/
def jsTrim (cs : List Char) : List Char :=
  ((cs.dropWhile isJsWsC).reverse.dropWhile isJsWsC).reverse

/-- Numeric value of a digit string, as computed by JS `parseInt` on a
matched `\d+` group (modelled exactly, over `Nat`). -/
def digitsVal (ds : List Char) : Nat :=
  ds.foldl (fun a c => a * 10 + (c.toNat - 48)) 0

/-! ## `parseDuration` (src/lib/simple-config.ts, `utils.ts` section)

```
export function parseDuration(duration: string): number {
  const normalizedDuration = duration.toLowerCase().trim();
  if (/^\d+$/.test(normalizedDuration)) { return parseInt(normalizedDuration); }
  const decimalHoursMatch = normalizedDuration.match(/^(\d+(?:\.\d+)?)h?$/);
  if (decimalHoursMatch && decimalHoursMatch[1]) {
    return Math.round(parseFloat(decimalHoursMatch[1]) * 60); }
  const hoursMinutesMatch = normalizedDuration.match(/^(?:(\d+)h)?(?:(\d+)m)?$/);
  if (hoursMinutesMatch) {
    const hours = parseInt(hoursMinutesMatch[1] || '0');
    const minutes = parseInt(hoursMinutesMatch[2] || '0');
    return hours * 60 + minutes; }
  const minutesMatch = normalizedDuration.match(/^(\d+)m$/);
  if (minutesMatch && minutesMatch[1]) { return parseInt(minutesMatch[1]); }
  const hoursMatch = normalizedDuration.match(/^(\d+)h$/);
  if (hoursMatch && hoursMatch[1]) { return parseInt(hoursMatch[1]) * 60; }
  throw new Error(`Invalid duration format: ...`);
}
```

Each regex is translated into a deterministic scanner; because a digit can
never begin the continuation of any of these patterns, the greedy
`takeWhile` split coincides with the regex's backtracking search. -/

/-- `/^(\d+(?:\.\d+)?)h?$/`: integer digits, optional fraction digits. -/
def matchDecimal (cs : List Char) : Option (List Char × List Char) :=
  let ds := cs.takeWhile isDigitC
  let rest := cs.dropWhile isDigitC
  if ds.isEmpty then none
  else if rest = [] then some (ds, [])
  else if rest = ['h'] then some (ds, [])
  else if rest.head? = some '.' then
    let r2 := rest.tail
    let fs := r2.takeWhile isDigitC
    let r3 := r2.dropWhile isDigitC
    if fs.isEmpty then none
    else if r3 = [] then some (ds, fs)
    else if r3 = ['h'] then some (ds, fs)
    else none
  else none

/-- `/^(?:(\d+)h)?(?:(\d+)m)?$/`: both groups optional (so the empty string
matches, yielding hours = minutes = 0). -/
def matchHoursMinutes (cs : List Char) : Option (Nat × Nat) :=
  let ds := cs.takeWhile isDigitC
  let rest := cs.dropWhile isDigitC
  if !ds.isEmpty && rest.head? = some 'h' then
    let r2 := rest.tail
    let ms := r2.takeWhile isDigitC
    let r3 := r2.dropWhile isDigitC
    if r2.isEmpty then some (digitsVal ds, 0)
    else if !ms.isEmpty && r3 = ['m'] then some (digitsVal ds, digitsVal ms)
    else none
  else if cs.isEmpty then some (0, 0)
  else if !ds.isEmpty && rest = ['m'] then some (0, digitsVal ds)
  else none

/-- `/^(\d+)m$/`. -/
def matchMinutesOnly (cs : List Char) : Option Nat :=
  let ds := cs.takeWhile isDigitC
  if !ds.isEmpty && cs.dropWhile isDigitC = ['m'] then some (digitsVal ds) else none

/-- `/^(\d+)h$/`. -/
def matchHoursOnly (cs : List Char) : Option Nat :=
  let ds := cs.takeWhile isDigitC
  if !ds.isEmpty && cs.dropWhile isDigitC = ['h'] then some (digitsVal ds) else none

/-- `Math.round(parseFloat("I.F") * 60)` in exact arithmetic:
round-half-up of `(I + F / 10^k) * 60`, written with `Nat` floor division. -/
def decimalToMinutes (ds fs : List Char) : Nat :=
  let p : Nat := 10 ^ fs.length
  (120 * (digitsVal ds * p + digitsVal fs) + p) / (2 * p)

/-- The message built by `parseDuration`'s final `throw`. -/
def invalidDurationMsg (duration : String) : String :=
  "Invalid duration format: " ++ duration ++
    ". Use formats like: 1h, 30m, 1h30m, 1.5h, or 90"

/-- The pattern cascade of `parseDuration` applied to the normalized
(lower-cased, trimmed) literal; each early `return` of the source is a
`some`, the final `throw` is `none`. -/
def parseDurationCore (cs : List Char) : Option Nat :=
  if !cs.isEmpty && cs.all isDigitC then some (digitsVal cs)
  else
    match matchDecimal cs with
    | some (ds, fs) => some (decimalToMinutes ds fs)
    | none =>
      match matchHoursMinutes cs with
      | some (h, m) => some (h * 60 + m)
      | none =>
        match matchMinutesOnly cs with
        | some m => some m
        | none =>
          match matchHoursOnly cs with
          | some h => some (h * 60)
          | none => none

/-- `parseDuration`, with the thrown `Error` as `Except.error`. -/
def parseDuration (duration : String) : Except String Nat :=
  match parseDurationCore (jsTrim (duration.data.map toLowerC)) with
  | some n => Except.ok n
  | none => Except.error (invalidDurationMsg duration)

/-- A literal is recognized when any of the patterns used by
`parseDuration` matches its normalized form. -/
def durationRecognized (cs : List Char) : Bool :=
  (!cs.isEmpty && cs.all isDigitC) || (matchDecimal cs).isSome ||
    (matchHoursMinutes cs).isSome || (matchMinutesOnly cs).isSome ||
    (matchHoursOnly cs).isSome

/-! ## Basic lemmas about the character helpers -/

theorem toLowerC_eq_self (c : Char) (h : c.toNat < 65 ∨ 90 < c.toNat) :
    toLowerC c = c := by
  unfold toLowerC
  split
  · rename_i hcond
    simp only [Bool.and_eq_true, decide_eq_true_eq] at hcond
    omega
  · rfl

theorem toLowerC_eq_self_of_digit (c : Char) (h : isDigitC c = true) :
    toLowerC c = c := by
  apply toLowerC_eq_self
  unfold isDigitC at h
  simp only [Bool.and_eq_true, decide_eq_true_eq] at h
  omega

theorem isJsWsC_eq_false_of_digit (c : Char) (h : isDigitC c = true) :
    isJsWsC c = false := by
  unfold isDigitC at h
  unfold isJsWsC
  simp only [Bool.and_eq_true, decide_eq_true_eq] at h
  simp only [Bool.or_eq_false_iff, Bool.and_eq_false_iff, decide_eq_false_iff_not]
  omega

theorem toLowerC_eq_self_of_ws (c : Char) (h : isJsWsC c = true) :
    toLowerC c = c := by
  apply toLowerC_eq_self
  unfold isJsWsC at h
  simp only [Bool.or_eq_true, Bool.and_eq_true, decide_eq_true_eq] at h
  omega

theorem map_toLowerC_of_fixed (cs : List Char)
    (h : ∀ c ∈ cs, toLowerC c = c) : cs.map toLowerC = cs := by
  induction cs with
  | nil => rfl
  | cons a l ih =>
    simp only [List.map_cons, h a (by simp)]
    rw [ih (fun c hc => h c (by simp [hc]))]

theorem dropWhile_eq_self_of_none (p : Char → Bool) (cs : List Char)
    (h : ∀ c ∈ cs, p c = false) : cs.dropWhile p = cs := by
  cases cs with
  | nil => rfl
  | cons a l => simp [List.dropWhile_cons, h a (by simp)]

/-- `jsTrim` is the identity on a list with no whitespace character. -/
theorem jsTrim_eq_self (cs : List Char) (h : ∀ c ∈ cs, isJsWsC c = false) :
    jsTrim cs = cs := by
  unfold jsTrim
  rw [dropWhile_eq_self_of_none _ _ h,
    dropWhile_eq_self_of_none _ _ (fun c hc => h c (by simpa using hc)),
    List.reverse_reverse]

theorem jsTrim_eq_nil (cs : List Char) (h : ∀ c ∈ cs, isJsWsC c = true) :
    jsTrim cs = [] := by
  unfold jsTrim
  rw [List.dropWhile_eq_nil_iff.mpr (fun c hc => h c hc)]
  rfl

theorem takeWhile_append_stop (p : Char → Bool) (ds : List Char) (x : Char)
    (tl : List Char) (hds : ∀ c ∈ ds, p c = true) (hx : p x = false) :
    (ds ++ x :: tl).takeWhile p = ds := by
  induction ds with
  | nil => simp [List.takeWhile_cons, hx]
  | cons a l ih =>
    simp only [List.cons_append, List.takeWhile_cons, hds a (by simp)]
    rw [ih (fun c hc => hds c (by simp [hc]))]
    simp

theorem dropWhile_append_stop (p : Char → Bool) (ds : List Char) (x : Char)
    (tl : List Char) (hds : ∀ c ∈ ds, p c = true) (hx : p x = false) :
    (ds ++ x :: tl).dropWhile p = x :: tl := by
  induction ds with
  | nil => simp [List.dropWhile_cons, hx]
  | cons a l ih =>
    simp only [List.cons_append, List.dropWhile_cons, hds a (by simp)]
    rw [ih (fun c hc => hds c (by simp [hc]))]
    simp

theorem takeWhile_eq_self_of_all (p : Char → Bool) (ds : List Char)
    (hds : ∀ c ∈ ds, p c = true) : ds.takeWhile p = ds :=
  List.takeWhile_eq_self_iff.mpr hds

theorem dropWhile_eq_nil_of_all (p : Char → Bool) (ds : List Char)
    (hds : ∀ c ∈ ds, p c = true) : ds.dropWhile p = [] :=
  List.dropWhile_eq_nil_iff.mpr hds

/-- `Math.round` over exact arithmetic agrees with the `Nat`-division form
used by `decimalToMinutes`. -/
theorem decimalToMinutes_eq_round (ds fs : List Char) :
    decimalToMinutes ds fs =
      ⌊((digitsVal ds : ℚ) + digitsVal fs / 10 ^ fs.length) * 60 + 1/2⌋₊ := by
  unfold decimalToMinutes
  have hkey : ((digitsVal ds : ℚ) + digitsVal fs / 10 ^ fs.length) * 60 + 1/2 =
      ((120 * (digitsVal ds * 10 ^ fs.length + digitsVal fs) + 10 ^ fs.length : ℕ) : ℚ) /
        ((2 * 10 ^ fs.length : ℕ) : ℚ) := by
    have hp : ((10 : ℚ)) ^ fs.length ≠ 0 := pow_ne_zero _ (by norm_num)
    push_cast
    field_simp
    ring
  rw [hkey, Nat.floor_div_eq_div]

/-! ## Evaluating `parseDurationCore` on the recognized forms -/

theorem parseDurationCore_digits (ds : List Char) (h1 : ds ≠ [])
    (h2 : ∀ c ∈ ds, isDigitC c = true) :
    parseDurationCore ds = some (digitsVal ds) := by
  have hall : ds.all isDigitC = true := List.all_eq_true.mpr h2
  have hc : (!ds.isEmpty && ds.all isDigitC) = true := by
    simp [List.isEmpty_iff, h1, hall]
  unfold parseDurationCore
  rw [hc]
  simp

theorem parseDurationCore_minutes (ds : List Char) (h1 : ds ≠ [])
    (h2 : ∀ c ∈ ds, isDigitC c = true) :
    parseDurationCore (ds ++ ['m']) = some (digitsVal ds) := by
  have hmd : isDigitC 'm' = false := by decide
  have htake := takeWhile_append_stop isDigitC ds 'm' [] h2 hmd
  have hdrop := dropWhile_append_stop isDigitC ds 'm' [] h2 hmd
  have hcond : (!(ds ++ ['m']).isEmpty && (ds ++ ['m']).all isDigitC) = false := by
    simp [List.all_append, hmd]
  have hdec : matchDecimal (ds ++ ['m']) = none := by
    unfold matchDecimal
    rw [htake, hdrop]
    simp [List.isEmpty_iff, h1]
  have hhm : matchHoursMinutes (ds ++ ['m']) = some (0, digitsVal ds) := by
    unfold matchHoursMinutes
    rw [htake, hdrop]
    simp [List.isEmpty_iff, h1]
  unfold parseDurationCore
  rw [hcond, hdec, hhm]
  simp

theorem parseDurationCore_hours (ds : List Char) (h1 : ds ≠ [])
    (h2 : ∀ c ∈ ds, isDigitC c = true) :
    parseDurationCore (ds ++ ['h']) = some (digitsVal ds * 60) := by
  have hhd : isDigitC 'h' = false := by decide
  have htake := takeWhile_append_stop isDigitC ds 'h' [] h2 hhd
  have hdrop := dropWhile_append_stop isDigitC ds 'h' [] h2 hhd
  have hcond : (!(ds ++ ['h']).isEmpty && (ds ++ ['h']).all isDigitC) = false := by
    simp [List.all_append, hhd]
  have hdec : matchDecimal (ds ++ ['h']) = some (ds, []) := by
    unfold matchDecimal
    rw [htake, hdrop]
    simp [List.isEmpty_iff, h1]
  have hval : decimalToMinutes ds [] = digitsVal ds * 60 := by
    unfold decimalToMinutes digitsVal
    simp
    omega
  unfold parseDurationCore
  rw [hcond, hdec]
  simp [hval]

theorem parseDurationCore_hoursMinutes (ds ms : List Char) (h1 : ds ≠ [])
    (h3 : ms ≠ []) (h2 : ∀ c ∈ ds, isDigitC c = true)
    (h4 : ∀ c ∈ ms, isDigitC c = true) :
    parseDurationCore (ds ++ 'h' :: ms ++ ['m']) =
      some (digitsVal ds * 60 + digitsVal ms) := by
  have hhd : isDigitC 'h' = false := by decide
  have hmd : isDigitC 'm' = false := by decide
  obtain ⟨m0, mrest, rfl⟩ := List.exists_cons_of_ne_nil h3
  simp only [List.append_assoc, List.cons_append]
  have htake := takeWhile_append_stop isDigitC ds 'h' (m0 :: (mrest ++ ['m'])) h2 hhd
  have hdrop := dropWhile_append_stop isDigitC ds 'h' (m0 :: (mrest ++ ['m'])) h2 hhd
  have htake2 := takeWhile_append_stop isDigitC (m0 :: mrest) 'm' [] h4 hmd
  have hdrop2 := dropWhile_append_stop isDigitC (m0 :: mrest) 'm' [] h4 hmd
  simp only [List.cons_append] at htake2 hdrop2
  have hcond : (!(ds ++ 'h' :: m0 :: (mrest ++ ['m'])).isEmpty &&
      (ds ++ 'h' :: m0 :: (mrest ++ ['m'])).all isDigitC) = false := by
    simp [List.all_append, hhd]
  have hdec : matchDecimal (ds ++ 'h' :: m0 :: (mrest ++ ['m'])) = none := by
    unfold matchDecimal
    simp only [htake, hdrop, List.isEmpty_iff, h1]
    simp
  have hhm : matchHoursMinutes (ds ++ 'h' :: m0 :: (mrest ++ ['m'])) =
      some (digitsVal ds, digitsVal (m0 :: mrest)) := by
    unfold matchHoursMinutes
    simp only [htake, hdrop, htake2, hdrop2, List.isEmpty_iff, h1,
      List.head?_cons, List.tail_cons]
    simp [h1]
  unfold parseDurationCore
  simp only [hcond, hdec, hhm]
  simp

theorem parseDurationCore_decimal (ds fs : List Char) (h1 : ds ≠ [])
    (h3 : fs ≠ []) (h2 : ∀ c ∈ ds, isDigitC c = true)
    (h4 : ∀ c ∈ fs, isDigitC c = true) :
    parseDurationCore (ds ++ '.' :: fs ++ ['h']) =
      some (decimalToMinutes ds fs) := by
  have hdd : isDigitC '.' = false := by decide
  have hhd : isDigitC 'h' = false := by decide
  obtain ⟨f0, frest, rfl⟩ := List.exists_cons_of_ne_nil h3
  simp only [List.append_assoc, List.cons_append]
  have htake := takeWhile_append_stop isDigitC ds '.' (f0 :: (frest ++ ['h'])) h2 hdd
  have hdrop := dropWhile_append_stop isDigitC ds '.' (f0 :: (frest ++ ['h'])) h2 hdd
  have htake2 := takeWhile_append_stop isDigitC (f0 :: frest) 'h' [] h4 hhd
  have hdrop2 := dropWhile_append_stop isDigitC (f0 :: frest) 'h' [] h4 hhd
  simp only [List.cons_append] at htake2 hdrop2
  have hcond : (!(ds ++ '.' :: f0 :: (frest ++ ['h'])).isEmpty &&
      (ds ++ '.' :: f0 :: (frest ++ ['h'])).all isDigitC) = false := by
    simp [List.all_append, hdd]
  have hdec : matchDecimal (ds ++ '.' :: f0 :: (frest ++ ['h'])) =
      some (ds, f0 :: frest) := by
    unfold matchDecimal
    simp only [htake, hdrop, htake2, hdrop2, List.isEmpty_iff, h1,
      List.head?_cons, List.tail_cons]
    simp
  unfold parseDurationCore
  simp only [hcond, hdec]
  simp

theorem parseDurationCore_eq_none (cs : List Char)
    (h : durationRecognized cs = false) : parseDurationCore cs = none := by
  unfold durationRecognized at h
  simp only [Bool.or_eq_false_iff] at h
  obtain ⟨⟨⟨⟨hplain, hdec⟩, hhm⟩, hmin⟩, hhr⟩ := h
  have hdec' : matchDecimal cs = none := by
    cases hm : matchDecimal cs with
    | none => rfl
    | some v => rw [hm] at hdec; simp at hdec
  have hhm' : matchHoursMinutes cs = none := by
    cases hm : matchHoursMinutes cs with
    | none => rfl
    | some v => rw [hm] at hhm; simp at hhm
  have hmin' : matchMinutesOnly cs = none := by
    cases hm : matchMinutesOnly cs with
    | none => rfl
    | some v => rw [hm] at hmin; simp at hmin
  have hhr' : matchHoursOnly cs = none := by
    cases hm : matchHoursOnly cs with
    | none => rfl
    | some v => rw [hm] at hhr; simp at hhr
  unfold parseDurationCore
  rw [hplain, hdec', hhm', hmin', hhr']
  simp

/-- Normalization (`toLowerCase().trim()`) is the identity on literals built
from digits and the lowercase markers `h`, `m`, `.`. -/
theorem normalize_eq_self (l : List Char)
    (h : ∀ c ∈ l, isDigitC c = true ∨ c = 'h' ∨ c = 'm' ∨ c = '.') :
    jsTrim ((String.mk l).data.map toLowerC) = l := by
  have hlow : ∀ c ∈ l, toLowerC c = c := by
    intro c hc
    rcases h c hc with hd | rfl | rfl | rfl
    · exact toLowerC_eq_self_of_digit c hd
    · decide
    · decide
    · decide
  have hws : ∀ c ∈ l, isJsWsC c = false := by
    intro c hc
    rcases h c hc with hd | rfl | rfl | rfl
    · exact isJsWsC_eq_false_of_digit c hd
    · decide
    · decide
    · decide
  show jsTrim (l.map toLowerC) = l
  rw [map_toLowerC_of_fixed _ hlow, jsTrim_eq_self _ hws]

theorem parseDuration_of_core (s : String) (n : Nat)
    (h : parseDurationCore (jsTrim (s.data.map toLowerC)) = some n) :
    parseDuration s = Except.ok n := by
  unfold parseDuration
  rw [h]

theorem parseDuration_of_core_none (s : String)
    (h : parseDurationCore (jsTrim (s.data.map toLowerC)) = none) :
    parseDuration s = Except.error (invalidDurationMsg s) := by
  unfold parseDuration
  rw [h]

/-! ## Claim theorems for duration parsing -/

/-- C4: for every literal of the forms `"<n>"`, `"<n>m"`, `"<n>h"`,
`"<h>h<m>m"` and `"<d>.<d>h"`, `parseDuration` returns the expected whole
minute count (`n`, `n`, `60n`, `60h + m`, and the decimal-hour value rounded
to the nearest minute, half up); every literal matching none of the
recognized patterns fails with the `InvalidDuration` message, which includes
the offending literal verbatim. -/
theorem parseDuration_forms_spec :
    (∀ ds : List Char, ds ≠ [] → (∀ c ∈ ds, isDigitC c = true) →
      parseDuration (String.mk ds) = Except.ok (digitsVal ds)) ∧
    (∀ ds : List Char, ds ≠ [] → (∀ c ∈ ds, isDigitC c = true) →
      parseDuration (String.mk (ds ++ ['m'])) = Except.ok (digitsVal ds)) ∧
    (∀ ds : List Char, ds ≠ [] → (∀ c ∈ ds, isDigitC c = true) →
      parseDuration (String.mk (ds ++ ['h'])) = Except.ok (digitsVal ds * 60)) ∧
    (∀ ds ms : List Char, ds ≠ [] → ms ≠ [] → (∀ c ∈ ds, isDigitC c = true) →
      (∀ c ∈ ms, isDigitC c = true) →
      parseDuration (String.mk (ds ++ 'h' :: ms ++ ['m'])) =
        Except.ok (digitsVal ds * 60 + digitsVal ms)) ∧
    (∀ ds fs : List Char, ds ≠ [] → fs ≠ [] → (∀ c ∈ ds, isDigitC c = true) →
      (∀ c ∈ fs, isDigitC c = true) →
      parseDuration (String.mk (ds ++ '.' :: fs ++ ['h'])) =
        Except.ok ⌊((digitsVal ds : ℚ) + digitsVal fs / 10 ^ fs.length) * 60 + 1/2⌋₊) ∧
    (∀ s : String, durationRecognized (jsTrim (s.data.map toLowerC)) = false →
      parseDuration s = Except.error (invalidDurationMsg s)) := by
  refine ⟨?_, ?_, ?_, ?_, ?_, ?_⟩
  · intro ds h1 h2
    have hnorm := normalize_eq_self ds (fun c hc => Or.inl (h2 c hc))
    apply parseDuration_of_core
    rw [hnorm]
    exact parseDurationCore_digits ds h1 h2
  · intro ds h1 h2
    have hnorm := normalize_eq_self (ds ++ ['m']) (by
      intro c hc
      simp only [List.mem_append, List.mem_singleton] at hc
      rcases hc with hc | rfl
      · exact Or.inl (h2 c hc)
      · simp)
    apply parseDuration_of_core
    rw [hnorm]
    exact parseDurationCore_minutes ds h1 h2
  · intro ds h1 h2
    have hnorm := normalize_eq_self (ds ++ ['h']) (by
      intro c hc
      simp only [List.mem_append, List.mem_singleton] at hc
      rcases hc with hc | rfl
      · exact Or.inl (h2 c hc)
      · simp)
    apply parseDuration_of_core
    rw [hnorm]
    exact parseDurationCore_hours ds h1 h2
  · intro ds ms h1 h3 h2 h4
    have hnorm := normalize_eq_self (ds ++ 'h' :: ms ++ ['m']) (by
      intro c hc
      rcases List.mem_append.mp hc with hc1 | hc1
      · rcases List.mem_append.mp hc1 with hc2 | hc2
        · exact Or.inl (h2 c hc2)
        · rcases List.mem_cons.mp hc2 with rfl | hc3
          · simp
          · exact Or.inl (h4 c hc3)
      · obtain rfl := List.mem_singleton.mp hc1
        simp)
    apply parseDuration_of_core
    rw [hnorm]
    exact parseDurationCore_hoursMinutes ds ms h1 h3 h2 h4
  · intro ds fs h1 h3 h2 h4
    have hnorm := normalize_eq_self (ds ++ '.' :: fs ++ ['h']) (by
      intro c hc
      rcases List.mem_append.mp hc with hc1 | hc1
      · rcases List.mem_append.mp hc1 with hc2 | hc2
        · exact Or.inl (h2 c hc2)
        · rcases List.mem_cons.mp hc2 with rfl | hc3
          · simp
          · exact Or.inl (h4 c hc3)
      · obtain rfl := List.mem_singleton.mp hc1
        simp)
    have hcore := parseDurationCore_decimal ds fs h1 h3 h2 h4
    rw [decimalToMinutes_eq_round] at hcore
    apply parseDuration_of_core
    rw [hnorm]
    exact hcore
  · intro s h
    exact parseDuration_of_core_none s (parseDurationCore_eq_none _ h)

/-- Witness for C4 at the spec's own examples. -/
theorem parseDuration_forms_spec_witness :
    parseDuration "90" = Except.ok 90 ∧ parseDuration "1h30m" = Except.ok 90 ∧
    parseDuration "1.5h" = Except.ok 90 ∧ parseDuration "2h" = Except.ok 120 ∧
    parseDuration "abc" = Except.error (invalidDurationMsg "abc") := by
  refine ⟨?_, ?_, ?_, ?_, ?_⟩
  · have h := parseDuration_forms_spec.1 ['9', '0'] (by decide) (by decide)
    simpa using h
  · have h := parseDuration_forms_spec.2.2.2.1 ['1'] ['3', '0']
      (by decide) (by decide) (by decide) (by decide)
    simpa using h
  · have h := parseDuration_forms_spec.2.2.2.2.1 ['1'] ['5']
      (by decide) (by decide) (by decide) (by decide)
    rw [← decimalToMinutes_eq_round] at h
    simpa using h
  · have h := parseDuration_forms_spec.2.2.1 ['2'] (by decide) (by decide)
    simpa using h
  · exact parseDuration_forms_spec.2.2.2.2.2 "abc" (by decide)

/-- C10: `parseDuration` maps the empty string, and any all-whitespace
string, to `0` minutes rather than failing, because the combined
hour+minute pattern has both groups optional and matches the empty trimmed
input. -/
theorem parseDuration_whitespace_zero (s : String)
    (h : ∀ c ∈ s.data, isJsWsC c = true) : parseDuration s = Except.ok 0 := by
  apply parseDuration_of_core
  have hlow : s.data.map toLowerC = s.data :=
    map_toLowerC_of_fixed _ (fun c hc => toLowerC_eq_self_of_ws c (h c hc))
  rw [hlow, jsTrim_eq_nil _ h]
  rfl

/-- Witness for C10: the empty and a spaces-only literal parse to 0. -/
theorem parseDuration_whitespace_zero_witness :
    parseDuration "" = Except.ok 0 ∧ parseDuration "   " = Except.ok 0 :=
  ⟨parseDuration_whitespace_zero "" (by decide),
   parseDuration_whitespace_zero "   " (by decide)⟩

/-! ## `sanitizeInput` (src/lib/simple-config.ts, `utils.ts` section)

```
export function sanitizeInput(input: string): string {
  return input
    .trim()
    .replace(/[<>&"'`]/g, '')
    .replace(/\x00-\x1f/g, '')   // NOTE: no brackets - a literal 3-char sequence
    .replace(/\x7f-\x9f/g, '')   // likewise a literal sequence
    .substring(0, 1000);
}
```

The second and third `replace` patterns have no character class brackets:
each matches the literal three-character sequence `\x00`, `-`, `\x1f`
(resp. `\x7f`, `-`, `\x9f`), and `replace` removes non-overlapping
occurrences in one left-to-right pass. -/

/-- The `/[<>&"'`]/` class, by code point (60 62 38 34 39 96). -/
def isDangerC (c : Char) : Bool :=
  c.toNat = 60 || c.toNat = 62 || c.toNat = 38 || c.toNat = 34 ||
    c.toNat = 39 || c.toNat = 96

/-- One left-to-right pass removing non-overlapping occurrences of the
three-character sequence `a b c`, as JS `replace` with a `/g` literal
pattern does. -/
def removeSeq3 (a b c : Char) : List Char → List Char
  | [] => []
  | [x] => [x]
  | [x, y] => [x, y]
  | x :: y :: z :: rest =>
    if x == a && y == b && z == c then removeSeq3 a b c rest
    else x :: removeSeq3 a b c (y :: z :: rest)

/-- Whether the three-character sequence `a b c` occurs in the list. -/
def containsSeq3 (a b c : Char) : List Char → Bool
  | [] => false
  | [_] => false
  | [_, _] => false
  | x :: y :: z :: rest =>
    (x == a && y == b && z == c) || containsSeq3 a b c (y :: z :: rest)

/-- `sanitizeInput`: trim, strip the dangerous characters, remove the two
literal control sequences, cap at 1000 characters. -/
def sanitizeInput (s : String) : String :=
  String.mk
    (((removeSeq3 (Char.ofNat 127) '-' (Char.ofNat 159)
        (removeSeq3 (Char.ofNat 0) '-' (Char.ofNat 31)
          ((jsTrim s.data).filter (fun c => !isDangerC c)))).take 1000))

theorem removeSeq3_eq_self (a b c : Char) (l : List Char)
    (h : containsSeq3 a b c l = false) : removeSeq3 a b c l = l := by
  induction l with
  | nil => rfl
  | cons x tl ih =>
    cases tl with
    | nil => rfl
    | cons y tl2 =>
      cases tl2 with
      | nil => rfl
      | cons z rest =>
        unfold containsSeq3 at h
        simp only [Bool.or_eq_false_iff] at h
        unfold removeSeq3
        rw [if_neg (by simp [h.1])]
        rw [ih h.2]

/-- Inputs already in sanitized normal form: trimmed, free of the stripped
characters and control sequences, within the length cap. -/
def CleanInput (s : String) : Prop :=
  jsTrim s.data = s.data ∧ (∀ c ∈ s.data, isDangerC c = false) ∧
    containsSeq3 (Char.ofNat 0) '-' (Char.ofNat 31) s.data = false ∧
    containsSeq3 (Char.ofNat 127) '-' (Char.ofNat 159) s.data = false ∧
    s.data.length ≤ 1000

instance (s : String) : Decidable (CleanInput s) := by
  unfold CleanInput
  infer_instance

/-- C5 counterexample: sanitization is not idempotent.  Removing the `<`
of `"< a"` exposes a leading space that only the trim of a second pass
removes: `sanitizeInput "< a" = " a"` but
`sanitizeInput " a" = "a"`. -/
theorem sanitizeInput_not_idempotent :
    sanitizeInput (sanitizeInput "< a") ≠ sanitizeInput "< a" := by decide

/-- C5 (amended): sanitization is pure, and it is the identity on every
already-clean input (trimmed, free of the stripped characters and control
sequences, within the length cap); consequently re-sanitizing is the
identity exactly when the first pass produces such a clean string.  Full
idempotence fails (see the counterexample). -/
theorem sanitizeInput_clean_spec :
    (∀ s : String, CleanInput s → sanitizeInput s = s) ∧
    (∀ s : String, CleanInput (sanitizeInput s) →
      sanitizeInput (sanitizeInput s) = sanitizeInput s) := by
  have main : ∀ s : String, CleanInput s → sanitizeInput s = s := by
    intro s hs
    obtain ⟨h1, h2, h3, h4, h5⟩ := hs
    unfold sanitizeInput
    rw [h1]
    rw [List.filter_eq_self.mpr (by intro c hc; simp [h2 c hc])]
    rw [removeSeq3_eq_self _ _ _ _ h3, removeSeq3_eq_self _ _ _ _ h4]
    rw [List.take_of_length_le h5]
  exact ⟨main, fun s h => main _ h⟩

/-- Witness for the amended C5 at concrete clean inputs. -/
theorem sanitizeInput_clean_spec_witness :
    sanitizeInput "hello world" = "hello world" ∧
    sanitizeInput (sanitizeInput "report notes") = sanitizeInput "report notes" :=
  ⟨sanitizeInput_clean_spec.1 "hello world" (by decide),
   sanitizeInput_clean_spec.2 "report notes" (by decide)⟩

/-! ## `securelyProcessInput` / `validateSecureInput`
(src/lib/simple-config.ts, `security.ts` section)

```
export function securelyProcessInput(input, maxLength = MAX_DESCRIPTION_LENGTH) {
  let cleaned = input
    .replace(/\x00/g, '')
    .replace(/[\x00-\x08\x0B\x0C\x0E-\x1F\x7F-\x9F]/g, '')
    .trim();
  if (!validateSecureInput(cleaned, maxLength)) {
    throw new Error('Input contains potentially dangerous content');
  }
  if (cleaned.length > maxLength) { cleaned = cleaned.substring(0, maxLength); }
  return cleaned;
}
```

`validateSecureInput` rejects when the text exceeds `maxLength` or matches
one of `DANGEROUS_PATTERNS` (`<script...</script>`, `javascript:`,
`on\w+\s*=`, `data:text/html`, `vbscript:`, all case-insensitive). -/

/-- The control-character class `[\x00-\x08\x0B\x0C\x0E-\x1F\x7F-\x9F]`. -/
def isCtrlClassC (c : Char) : Bool :=
  c.toNat ≤ 8 || c.toNat = 11 || c.toNat = 12 ||
    (14 ≤ c.toNat && c.toNat ≤ 31) || (127 ≤ c.toNat && c.toNat ≤ 159)

/-- The cleaning pass of `securelyProcessInput`: drop null bytes, drop the
control class, trim. -/
def cleanedInput (cs : List Char) : List Char :=
  jsTrim ((cs.filter (fun c => !(c.toNat == 0))).filter (fun c => !isCtrlClassC c))

/-- Whether `pat` occurs as a contiguous subsequence. -/
def containsSeq (pat : List Char) : List Char → Bool
  | [] => pat.isPrefixOf ([] : List Char)
  | c :: rest => pat.isPrefixOf (c :: rest) || containsSeq pat rest

/-- `/<script[\s\S]*?<\/script>/i` on an already lower-cased text: an
occurrence of `<script` followed, at some point after its 7 characters, by
`</script>`. -/
def hasScriptTag : List Char → Bool
  | [] => false
  | c :: rest =>
    (("<script".data.isPrefixOf (c :: rest)) &&
      containsSeq "</script>".data ((c :: rest).drop 7)) || hasScriptTag rest

/-- `/on\w+\s*=/` anchored at the head of the list: `on`, one or more word
characters, optional whitespace, `=`.  Because a shorter `\w+` group is
necessarily followed by a word character (neither whitespace nor `=`), the
greedy split is the only candidate the regex backtracking can accept. -/
def onMatchAt : List Char → Bool
  | 'o' :: 'n' :: rest =>
    !(rest.takeWhile isWordC).isEmpty &&
      ((rest.dropWhile isWordC).dropWhile isJsWsC).head? == some '='
  | _ => false

/-- `/on\w+\s*=/i` anywhere in an already lower-cased text. -/
def hasOnHandler : List Char → Bool
  | [] => false
  | c :: rest => onMatchAt (c :: rest) || hasOnHandler rest

/-- Whether any of `DANGEROUS_PATTERNS` matches (all carry the `i` flag, so
the text is lower-cased first; the patterns are lower-case literals). -/
def dangerousMatch (cs : List Char) : Bool :=
  let l := cs.map toLowerC
  hasScriptTag l || containsSeq "javascript:".data l || hasOnHandler l ||
    containsSeq "data:text/html".data l || containsSeq "vbscript:".data l

/-- `validateSecureInput`: length bound, then the pattern blocklist. -/
def validateSecureInput (input : List Char) (maxLength : Nat) : Bool :=
  !(input.length > maxLength : Bool) && !dangerousMatch input

/-- `securelyProcessInput`: clean, validate (throw on failure), truncate
(dead code, as validation already bounded the length), return. -/
def securelyProcessInput (s : String) (maxLength : Nat) : Except String String :=
  let cleaned := cleanedInput s.data
  if !validateSecureInput cleaned maxLength then
    Except.error "Input contains potentially dangerous content"
  else if cleaned.length > maxLength then
    Except.ok (String.mk (cleaned.take maxLength))
  else Except.ok (String.mk cleaned)

/-- C6: sanitization fails closed.  After stripping null and control
characters and trimming, `securelyProcessInput` rejects exactly when the
cleaned text exceeds the length bound or matches the dangerous-pattern
blocklist, and otherwise returns the cleaned text unchanged — in
particular it never silently truncates. -/
theorem securelyProcessInput_fail_closed (s : String) (maxLength : Nat) :
    (securelyProcessInput s maxLength =
        Except.error "Input contains potentially dangerous content" ↔
      maxLength < (cleanedInput s.data).length ∨
        dangerousMatch (cleanedInput s.data) = true) ∧
    ((cleanedInput s.data).length ≤ maxLength →
      dangerousMatch (cleanedInput s.data) = false →
      securelyProcessInput s maxLength =
        Except.ok (String.mk (cleanedInput s.data))) := by
  unfold securelyProcessInput validateSecureInput
  by_cases hlen : maxLength < (cleanedInput s.data).length <;>
    cases hdm : dangerousMatch (cleanedInput s.data) <;>
      simp [hlen, hdm]

/-- Witness for C6: a blocked pattern and an overlong input are rejected;
clean text passes through unchanged. -/
theorem securelyProcessInput_fail_closed_witness :
    securelyProcessInput "hi <script>alert(1)</script>" 1000 =
      Except.error "Input contains potentially dangerous content" ∧
    securelyProcessInput "abcdef" 3 =
      Except.error "Input contains potentially dangerous content" ∧
    securelyProcessInput "hello" 1000 = Except.ok "hello" :=
  ⟨(securelyProcessInput_fail_closed "hi <script>alert(1)</script>" 1000).1.mpr
      (Or.inr (by decide)),
   (securelyProcessInput_fail_closed "abcdef" 3).1.mpr (Or.inl (by decide)),
   (securelyProcessInput_fail_closed "hello" 1000).2 (by decide) (by decide)⟩

/-! ## API client data model (src/lib/api.ts)

JS falsiness of an optional string field (`!entry.timeInterval.end`,
`!projectId`): `undefined`, `null` and the empty string are falsy; `x ||
null` maps a falsy value to `null`. -/

def jsStrFalsy : Option String → Bool
  | none => true
  | some s => s == ""

/-- `x || null` on an optional string. -/
def jsOrNull : Option String → Option String
  | none => none
  | some s => if s == "" then none else some s

/-- A time entry as `stopTimer` consumes it (`timeInterval.end` is the TS
field `end`, renamed because `end` is a Lean keyword). -/
structure TimeInterval where
  start : String
  end_ : Option String
deriving DecidableEq

structure TimeEntry where
  id : String
  description : Option String
  timeInterval : TimeInterval
  projectId : Option String
  taskId : Option String
  tagIds : Option (List String)
  billable : Bool
deriving DecidableEq

structure Project where
  id : String
  name : String
deriving DecidableEq

structure User where
  id : String
  email : String
  name : String
deriving DecidableEq

structure Workspace where
  id : String
  name : String
deriving DecidableEq

/-- The update payload `stopData` built by `stopTimer` (`end_` is the TS
field `end`). -/
structure StopData where
  start : String
  end_ : String
  billable : Bool
  description : String
  projectId : Option String
  taskId : Option String
  tagIds : List String
deriving DecidableEq

/-- The HTTP calls `stopTimer` can issue, in program order. -/
inductive ApiCall where
  | getTimeEntries (workspaceId userId : String)
  | getProjects (workspaceId : String)
  | putTimeEntry (workspaceId entryId : String) (payload : StopData)
deriving DecidableEq

def isPutCall : ApiCall → Bool
  | ApiCall.putTimeEntry _ _ _ => true
  | _ => false

def noRunningTimerMsg : String := "No running timer found"

/-- `timeEntries.find(entry => !entry.timeInterval.end)`. -/
def findRunning (entries : List TimeEntry) : Option TimeEntry :=
  entries.find? (fun e => jsStrFalsy e.timeInterval.end_)

/-- Lexicographic code-point order on strings (how ISO-8601 UTC timestamps
compare, and how JS compares strings). -/
def lexLeC : List Char → List Char → Bool
  | [], _ => true
  | _ :: _, [] => false
  | a :: as, b :: bs => if a == b then lexLeC as bs else decide (a.toNat < b.toNat)

def strLe (a b : String) : Bool := lexLeC a.data b.data

/-- `ClockifyAPI.stopTimer` (src/lib/api.ts lines 152-190), as a function of
the fetched entry list, the outcome a `getProjects` call would have, and
the current wall-clock time `now` (`new Date().toISOString()`).  Returns
the list of issued HTTP calls and either the submitted update payload or
the thrown error. -/
def stopTimer (workspaceId userId : String) (entries : List TimeEntry)
    (projectsResult : Except String (List Project)) (now : String) :
    List ApiCall × Except String StopData :=
  match findRunning entries with
  | none =>
    ([ApiCall.getTimeEntries workspaceId userId], Except.error noRunningTimerMsg)
  | some runningEntry =>
    let resolved :=
      if jsStrFalsy runningEntry.projectId then
        match projectsResult with
        | Except.ok (p :: _) => ([ApiCall.getProjects workspaceId], some p.id)
        | Except.ok [] => ([ApiCall.getProjects workspaceId], runningEntry.projectId)
        | Except.error _ => ([ApiCall.getProjects workspaceId], runningEntry.projectId)
      else ([], runningEntry.projectId)
    let stopData : StopData :=
      { start := runningEntry.timeInterval.start
        end_ := now
        billable := runningEntry.billable
        description := runningEntry.description.getD ""
        projectId := jsOrNull resolved.2
        taskId := jsOrNull runningEntry.taskId
        tagIds := runningEntry.tagIds.getD [] }
    (ApiCall.getTimeEntries workspaceId userId :: resolved.1 ++
       [ApiCall.putTimeEntry workspaceId runningEntry.id stopData],
     Except.ok stopData)

/-- `find?` returns the head of the filtered list: "the first entry, in
response order, satisfying the predicate". -/
theorem find?_eq_head_filter {α : Type} (p : α → Bool) (l : List α) :
    l.find? p = (l.filter p).head? := by
  induction l with
  | nil => rfl
  | cons a t ih =>
    cases hp : p a with
    | true =>
      rw [List.find?_cons_of_pos _ hp, List.filter_cons_of_pos hp, List.head?_cons]
    | false =>
      rw [List.find?_cons_of_neg _ (by simp [hp]), List.filter_cons_of_neg (by simp [hp]), ih]

/-- C1: whenever the fetched list contains an entry with an absent (falsy)
end timestamp, `stopTimer` selects the first such entry in response order,
issues exactly one update call targeting that entry's id, and the payload
copies the entry's start, billable flag, description, task and tags,
setting `end` to the current time — so the submitted end is ≥ the entry's
start whenever `now` is at or after the entry's start. -/
theorem stopTimer_running_spec (workspaceId userId : String)
    (entries : List TimeEntry) (projectsResult : Except String (List Project))
    (now : String) (r : TimeEntry)
    (hr : (entries.filter (fun e => jsStrFalsy e.timeInterval.end_)).head? = some r)
    (hnow : strLe r.timeInterval.start now = true) :
    ∃ sd : StopData,
      (stopTimer workspaceId userId entries projectsResult now).2 = Except.ok sd ∧
      (stopTimer workspaceId userId entries projectsResult now).1.filter isPutCall =
        [ApiCall.putTimeEntry workspaceId r.id sd] ∧
      sd.start = r.timeInterval.start ∧ sd.end_ = now ∧
      sd.billable = r.billable ∧ sd.description = r.description.getD "" ∧
      sd.taskId = jsOrNull r.taskId ∧ sd.tagIds = r.tagIds.getD [] ∧
      strLe sd.start sd.end_ = true ∧
      sd.projectId = jsOrNull
        (if jsStrFalsy r.projectId then
          match projectsResult with
          | Except.ok (p :: _) => some p.id
          | _ => r.projectId
        else r.projectId) := by
  have hfind : findRunning entries = some r := by
    unfold findRunning
    rw [find?_eq_head_filter]
    exact hr
  unfold stopTimer
  rw [hfind]
  by_cases hproj : jsStrFalsy r.projectId = true
  · cases projectsResult with
    | error e =>
      refine ⟨_, rfl, ?_, rfl, rfl, rfl, rfl, rfl, rfl, hnow, ?_⟩
      · simp [hproj, isPutCall]
      · simp [hproj]
    | ok ps =>
      cases ps with
      | nil =>
        refine ⟨_, rfl, ?_, rfl, rfl, rfl, rfl, rfl, rfl, hnow, ?_⟩
        · simp [hproj, isPutCall]
        · simp [hproj]
      | cons p rest =>
        refine ⟨_, rfl, ?_, rfl, rfl, rfl, rfl, rfl, rfl, hnow, ?_⟩
        · simp [hproj, isPutCall]
        · simp [hproj]
  · refine ⟨_, rfl, ?_, rfl, rfl, rfl, rfl, rfl, rfl, hnow, ?_⟩
    · simp [hproj, isPutCall]
    · simp [hproj]

/-- Witness for C1: with one finished and one running entry, the single
update call targets the running entry and copies its fields. -/
theorem stopTimer_running_spec_witness :
    ∃ sd : StopData,
      (stopTimer "w1" "u1"
        [⟨"e0", some "done", ⟨"2024-01-01T08:00:00Z", some "2024-01-01T09:00:00Z"⟩,
          some "p0", none, none, false⟩,
         ⟨"e1", some "work", ⟨"2024-01-01T10:00:00Z", none⟩,
          some "p1", some "t1", some ["tag1"], true⟩]
        (Except.error "boom") "2024-01-01T11:30:00Z").2 = Except.ok sd ∧
      (stopTimer "w1" "u1"
        [⟨"e0", some "done", ⟨"2024-01-01T08:00:00Z", some "2024-01-01T09:00:00Z"⟩,
          some "p0", none, none, false⟩,
         ⟨"e1", some "work", ⟨"2024-01-01T10:00:00Z", none⟩,
          some "p1", some "t1", some ["tag1"], true⟩]
        (Except.error "boom") "2024-01-01T11:30:00Z").1.filter isPutCall =
        [ApiCall.putTimeEntry "w1" "e1" sd] ∧
      sd.start = "2024-01-01T10:00:00Z" ∧ sd.end_ = "2024-01-01T11:30:00Z" ∧
      sd.billable = true ∧ sd.description = "work" ∧
      sd.taskId = some "t1" ∧ sd.tagIds = ["tag1"] ∧
      strLe sd.start sd.end_ = true := by
  obtain ⟨sd, h⟩ := stopTimer_running_spec "w1" "u1"
    [⟨"e0", some "done", ⟨"2024-01-01T08:00:00Z", some "2024-01-01T09:00:00Z"⟩,
      some "p0", none, none, false⟩,
     ⟨"e1", some "work", ⟨"2024-01-01T10:00:00Z", none⟩,
      some "p1", some "t1", some ["tag1"], true⟩]
    (Except.error "boom") "2024-01-01T11:30:00Z"
    ⟨"e1", some "work", ⟨"2024-01-01T10:00:00Z", none⟩,
      some "p1", some "t1", some ["tag1"], true⟩
    (by decide) (by decide)
  exact ⟨sd, h.1, h.2.1, h.2.2.1, h.2.2.2.1, h.2.2.2.2.1, h.2.2.2.2.2.1,
    h.2.2.2.2.2.2.1, h.2.2.2.2.2.2.2.1, h.2.2.2.2.2.2.2.2.1⟩

/-! ## Response classification (src/lib/api.ts response interceptor) -/

/-- The response interceptor's status-to-message mapping.  `none` models an
error with no HTTP response (network failure, timeout): every status test
on it is false, so it falls through to the generic message. -/
def classifyStatus (status : Option Nat) : String :=
  if status = some 401 then "Authentication failed. Please check your API key."
  else if status = some 403 then "Access denied. Check your permissions."
  else if status = some 429 then "Rate limit exceeded. Please try again later."
  else if status = some 404 then "Resource not found."
  else if 500 ≤ status.getD 0 then "Server error. Please try again later."
  else "Request failed. Please check your connection and try again."

/-- The closed taxonomy of transport messages the interceptor can raise. -/
def transportMessages : List String :=
  ["Authentication failed. Please check your API key.",
   "Access denied. Check your permissions.",
   "Rate limit exceeded. Please try again later.",
   "Resource not found.",
   "Server error. Please try again later.",
   "Request failed. Please check your connection and try again."]

/-- The response interceptor: a successful response passes through
unmodified, a failed one raises the classified message. -/
def interceptResponse (α : Type) (r : Except (Option Nat) α) : Except String α :=
  match r with
  | Except.ok a => Except.ok a
  | Except.error st => Except.error (classifyStatus st)

/-- `ClockifyAPI.testConnection`: re-throws any failure of the (already
intercepted) `/user` request with a `Connection test failed: ` prefix. -/
def testConnection (r : Except (Option Nat) User) : Except String User :=
  match interceptResponse User r with
  | Except.ok u => Except.ok u
  | Except.error m => Except.error ("Connection test failed: " ++ m)

/-- C2: `stopTimer` fails with the `NoRunningTimer` condition exactly when
the fetched list has no entry with an absent end timestamp; in that case it
issues only the entry fetch (no update, no project fetch); and that
condition is distinct from every transport-classified message. -/
theorem stopTimer_noRunning_spec (workspaceId userId : String)
    (entries : List TimeEntry) (projectsResult : Except String (List Project))
    (now : String) :
    ((entries.filter (fun e => jsStrFalsy e.timeInterval.end_) = []) ↔
      (stopTimer workspaceId userId entries projectsResult now).2 =
        Except.error noRunningTimerMsg) ∧
    (entries.filter (fun e => jsStrFalsy e.timeInterval.end_) = [] →
      (stopTimer workspaceId userId entries projectsResult now).1 =
        [ApiCall.getTimeEntries workspaceId userId]) ∧
    (∀ st : Option Nat, classifyStatus st ≠ noRunningTimerMsg) := by
  have hiff : findRunning entries = none ↔
      entries.filter (fun e => jsStrFalsy e.timeInterval.end_) = [] := by
    unfold findRunning
    rw [find?_eq_head_filter]
    exact List.head?_eq_none_iff
  refine ⟨⟨?_, ?_⟩, ?_, ?_⟩
  · intro h
    unfold stopTimer
    rw [hiff.mpr h]
  · intro h
    by_contra hne
    rw [← hiff] at hne
    obtain ⟨r, hr⟩ := Option.ne_none_iff_exists'.mp hne
    unfold stopTimer at h
    rw [hr] at h
    simp at h
  · intro h
    unfold stopTimer
    rw [hiff.mpr h]
  · intro st
    unfold classifyStatus noRunningTimerMsg
    split_ifs <;> decide

/-- Witness for C2: an all-finished list yields the NoRunningTimer error
and a single fetch call; 404 is classified differently. -/
theorem stopTimer_noRunning_spec_witness :
    (stopTimer "w1" "u1"
      [⟨"e0", none, ⟨"2024-01-01T08:00:00Z", some "2024-01-01T09:00:00Z"⟩,
        none, none, none, false⟩]
      (Except.ok []) "2024-01-01T11:00:00Z").2 = Except.error noRunningTimerMsg ∧
    (stopTimer "w1" "u1"
      [⟨"e0", none, ⟨"2024-01-01T08:00:00Z", some "2024-01-01T09:00:00Z"⟩,
        none, none, none, false⟩]
      (Except.ok []) "2024-01-01T11:00:00Z").1 =
      [ApiCall.getTimeEntries "w1" "u1"] ∧
    classifyStatus (some 404) ≠ noRunningTimerMsg := by
  have h := stopTimer_noRunning_spec "w1" "u1"
    [⟨"e0", none, ⟨"2024-01-01T08:00:00Z", some "2024-01-01T09:00:00Z"⟩,
      none, none, none, false⟩]
    (Except.ok []) "2024-01-01T11:00:00Z"
  exact ⟨h.1.mp (by decide), h.2.1 (by decide), h.2.2 (some 404)⟩

/-- C8: when the selected running entry has no (truthy) project id,
`stopTimer` fetches the workspace project list; if that fetch fails the
failure is swallowed — the stop still submits its single update, without a
project; if it succeeds the first project's id is used. -/
theorem stopTimer_fallback_spec (workspaceId userId : String)
    (entries : List TimeEntry) (projectsResult : Except String (List Project))
    (now : String) (r : TimeEntry)
    (hfind : findRunning entries = some r)
    (hnoproj : jsStrFalsy r.projectId = true) :
    (ApiCall.getProjects workspaceId ∈
      (stopTimer workspaceId userId entries projectsResult now).1) ∧
    (∀ e, projectsResult = Except.error e →
      ∃ sd : StopData,
        (stopTimer workspaceId userId entries projectsResult now).2 =
          Except.ok sd ∧
        sd.projectId = none ∧
        (stopTimer workspaceId userId entries projectsResult now).1.filter
          isPutCall = [ApiCall.putTimeEntry workspaceId r.id sd]) ∧
    (∀ p ps, projectsResult = Except.ok (p :: ps) →
      ∃ sd : StopData,
        (stopTimer workspaceId userId entries projectsResult now).2 =
          Except.ok sd ∧ sd.projectId = jsOrNull (some p.id)) := by
  have hnone : jsOrNull r.projectId = none := by
    cases hp : r.projectId with
    | none => rfl
    | some s =>
      rw [hp] at hnoproj
      have hs : (s == "") = true := hnoproj
      simp [jsOrNull, hs]
  unfold stopTimer
  rw [hfind]
  refine ⟨?_, ?_, ?_⟩
  · cases projectsResult with
    | error e => simp [hnoproj]
    | ok ps => cases ps with
      | nil => simp [hnoproj]
      | cons p rest => simp [hnoproj]
  · rintro e rfl
    exact ⟨_, rfl, by simp [hnoproj, hnone], by simp [hnoproj, isPutCall]⟩
  · rintro p ps rfl
    exact ⟨_, rfl, by simp [hnoproj]⟩

/-- Witness for C8: a failing project fetch is swallowed (the stop still
submits, with no project), and a successful fetch supplies the first
project's id. -/
theorem stopTimer_fallback_spec_witness :
    (ApiCall.getProjects "w1" ∈
      (stopTimer "w1" "u1"
        [⟨"e1", some "work", ⟨"2024-01-01T10:00:00Z", none⟩,
          none, none, none, true⟩]
        (Except.error "network down") "2024-01-01T11:00:00Z").1) ∧
    (∃ sd : StopData,
      (stopTimer "w1" "u1"
        [⟨"e1", some "work", ⟨"2024-01-01T10:00:00Z", none⟩,
          none, none, none, true⟩]
        (Except.error "network down") "2024-01-01T11:00:00Z").2 =
        Except.ok sd ∧
      sd.projectId = none ∧
      (stopTimer "w1" "u1"
        [⟨"e1", some "work", ⟨"2024-01-01T10:00:00Z", none⟩,
          none, none, none, true⟩]
        (Except.error "network down") "2024-01-01T11:00:00Z").1.filter
        isPutCall = [ApiCall.putTimeEntry "w1" "e1" sd]) := by
  have h := stopTimer_fallback_spec "w1" "u1"
    [⟨"e1", some "work", ⟨"2024-01-01T10:00:00Z", none⟩,
      none, none, none, true⟩]
    (Except.error "network down") "2024-01-01T11:00:00Z"
    ⟨"e1", some "work", ⟨"2024-01-01T10:00:00Z", none⟩,
      none, none, none, true⟩
    (by decide) (by decide)
  exact ⟨h.1, h.2.1 "network down" rfl⟩

/-- C7 counterexample: `testConnection` re-wraps an already classified
transport failure with additional detail — a 401 surfaces as
`Connection test failed: Authentication failed. ...`, not as the
classified message itself. -/
theorem testConnection_rewraps_counterexample :
    testConnection (Except.error (some 401)) =
      Except.error
        "Connection test failed: Authentication failed. Please check your API key." ∧
    testConnection (Except.error (some 401)) ≠
      Except.error (classifyStatus (some 401)) := by
  constructor
  · rfl
  · intro hc
    have h := Except.error.inj hc
    exact absurd h (by decide)

/-- C7 (amended): every failed pipeline call raises exactly one classified
error from the closed taxonomy (401, 403, 429, 404, ≥ 500, otherwise
generic — also when no response exists), a successful response passes
through unmodified, and the single exception to "never re-wrapped" is
`testConnection`, which prefixes the classified message with
`Connection test failed: `. -/
theorem responseClassification_spec :
    (∀ (α : Type) (r : Except (Option Nat) α) (a : α),
      interceptResponse α r = Except.ok a ↔ r = Except.ok a) ∧
    (∀ (α : Type) (st : Option Nat),
      interceptResponse α (Except.error st) = Except.error (classifyStatus st)) ∧
    (∀ st : Option Nat, classifyStatus st ∈ transportMessages) ∧
    classifyStatus (some 401) = "Authentication failed. Please check your API key." ∧
    classifyStatus (some 403) = "Access denied. Check your permissions." ∧
    classifyStatus (some 429) = "Rate limit exceeded. Please try again later." ∧
    classifyStatus (some 404) = "Resource not found." ∧
    (∀ s : Nat, 500 ≤ s → classifyStatus (some s) = "Server error. Please try again later.") ∧
    (∀ st : Option Nat, st ∉ [some 401, some 403, some 429, some 404] →
      st.getD 0 < 500 →
      classifyStatus st = "Request failed. Please check your connection and try again.") ∧
    (∀ st : Option Nat, testConnection (Except.error st) =
      Except.error ("Connection test failed: " ++ classifyStatus st)) := by
  refine ⟨?_, ?_, ?_, rfl, rfl, rfl, rfl, ?_, ?_, ?_⟩
  · intro α r a
    cases r <;> simp [interceptResponse]
  · intro α st
    rfl
  · intro st
    unfold classifyStatus transportMessages
    split_ifs <;> simp
  · intro s hs
    unfold classifyStatus
    have h1 : some s ≠ some 401 := by intro h; injection h; omega
    have h2 : some s ≠ some 403 := by intro h; injection h; omega
    have h3 : some s ≠ some 429 := by intro h; injection h; omega
    have h4 : some s ≠ some 404 := by intro h; injection h; omega
    rw [if_neg h1, if_neg h2, if_neg h3, if_neg h4, if_pos (by simpa using hs)]
  · intro st hmem hlt
    simp only [List.mem_cons, List.not_mem_nil] at hmem
    push_neg at hmem
    unfold classifyStatus
    rw [if_neg hmem.1, if_neg hmem.2.1, if_neg hmem.2.2.1, if_neg hmem.2.2.2.1,
      if_neg (by omega)]
  · intro st
    unfold testConnection
    rfl

/-- Witness for C7 (amended) at concrete statuses. -/
theorem responseClassification_spec_witness :
    interceptResponse Nat (Except.ok 7) = Except.ok 7 ∧
    interceptResponse Nat (Except.error (some 503)) =
      Except.error "Server error. Please try again later." ∧
    interceptResponse Nat (Except.error none) =
      Except.error "Request failed. Please check your connection and try again." ∧
    testConnection (Except.error (some 429)) =
      Except.error "Connection test failed: Rate limit exceeded. Please try again later." := by
  refine ⟨?_, ?_, ?_, ?_⟩
  · exact (responseClassification_spec.1 Nat (Except.ok 7) 7).mpr rfl
  · rw [responseClassification_spec.2.1 Nat (some 503),
      responseClassification_spec.2.2.2.2.2.2.2.1 503 (by omega)]
  · rw [responseClassification_spec.2.1 Nat none,
      responseClassification_spec.2.2.2.2.2.2.2.2.1 none (by decide) (by decide)]
  · rw [responseClassification_spec.2.2.2.2.2.2.2.2.2 (some 429),
      responseClassification_spec.2.2.2.2.2.1]
    rfl

/-! ## Request pacing (src/lib/api.ts request interceptor)

```
const now = Date.now();
const timeSinceLastRequest = now - this.lastRequestTime;
if (timeSinceLastRequest < this.minRequestInterval) {
  await sleep(this.minRequestInterval - timeSinceLastRequest);
}
this.lastRequestTime = Date.now();
```

The CLI issues its requests strictly sequentially (each is awaited), so the
interceptor runs are totally ordered.  `now` is the clock read at entry;
`slack` models both `setTimeout` firing no earlier than requested and the
second `Date.now()` read being at or after the wake-up instant.  The value
stored into `lastRequestTime` is the dispatch instant of the request. -/

def minRequestInterval : Nat := 100

/-- One interceptor run: the new `lastRequestTime` (dispatch instant). -/
def paceStep (lastRequestTime now slack : Nat) : Nat :=
  if now - lastRequestTime < minRequestInterval then
    now + (minRequestInterval - (now - lastRequestTime)) + slack
  else now + slack

/-- Dispatch instants of a back-to-back request sequence, threading the
`lastRequestTime` state; each request is described by its clock reading at
interceptor entry and its nonnegative sleep/read slack. -/
def dispatchTimes : Nat → List (Nat × Nat) → List Nat
  | _, [] => []
  | last, (now, slack) :: rest =>
    paceStep last now slack :: dispatchTimes (paceStep last now slack) rest

/-- The clock never runs backwards: each entry reading is at or after the
previously stored `lastRequestTime`. -/
def validArrivals : Nat → List (Nat × Nat) → Bool
  | _, [] => true
  | last, (now, slack) :: rest =>
    decide (last ≤ now) && validArrivals (paceStep last now slack) rest

/-- Consecutive dispatch instants are at least `minRequestInterval` apart. -/
def gapsOk : List Nat → Bool
  | [] => true
  | [_] => true
  | a :: b :: rest => decide (a + minRequestInterval ≤ b) && gapsOk (b :: rest)

theorem paceStep_lower (last now slack : Nat) (h : last ≤ now) :
    last + minRequestInterval ≤ paceStep last now slack := by
  unfold paceStep minRequestInterval
  split <;> omega

theorem gapsOk_from (last : Nat) (reqs : List (Nat × Nat))
    (h : validArrivals last reqs = true) :
    gapsOk (last :: dispatchTimes last reqs) = true := by
  induction reqs generalizing last with
  | nil => rfl
  | cons req rest ih =>
    obtain ⟨now, slack⟩ := req
    unfold validArrivals at h
    simp only [Bool.and_eq_true, decide_eq_true_eq] at h
    unfold dispatchTimes gapsOk
    simp only [Bool.and_eq_true, decide_eq_true_eq]
    exact ⟨paceStep_lower last now slack h.1, ih (paceStep last now slack) h.2⟩

/-- C3: for any back-to-back sequence of pipeline requests with a
monotonic clock, any two consecutive dispatch instants are at least the
configured minimum interval (100 ms) apart. -/
theorem pacing_spec (last : Nat) (reqs : List (Nat × Nat))
    (h : validArrivals last reqs = true) :
    gapsOk (dispatchTimes last reqs) = true := by
  have hfull := gapsOk_from last reqs h
  cases hd : dispatchTimes last reqs with
  | nil => rfl
  | cons d rest =>
    rw [hd] at hfull
    unfold gapsOk at hfull
    simp only [Bool.and_eq_true] at hfull
    exact hfull.2

/-- Witness for C3: three requests, one needing a pacing sleep. -/
theorem pacing_spec_witness :
    validArrivals 0 [(5, 0), (120, 0), (400, 3)] = true ∧
    gapsOk (dispatchTimes 0 [(5, 0), (120, 0), (400, 3)]) = true :=
  ⟨by decide, pacing_spec 0 [(5, 0), (120, 0), (400, 3)] (by decide)⟩

/-! ## `isValidApiKey` (utils.ts section) and the `login` flow
(src/commands/auth.ts, `authCommands.login`) -/

/-- Case-insensitive prefix test (`/^(test|fake|demo|sample)/i`). -/
def startsWithCI (pat cs : List Char) : Bool := pat.isPrefixOf (cs.map toLowerC)

/-- `/(.)\1{10,}/`: some character occurs 11 or more times in a row. -/
def runAux (c : Char) (n : Nat) : List Char → Bool
  | [] => decide (11 ≤ n)
  | x :: rest =>
    if 11 ≤ n then true
    else if x == c then runAux c (n + 1) rest
    else runAux x 1 rest

def hasRun11 : List Char → Bool
  | [] => false
  | c :: rest => runAux c 1 rest

/-- `isValidApiKey`: 40-60 characters, alphanumeric, no suspicious
pattern. -/
def isValidApiKey (apiKey : String) : Bool :=
  let cs := apiKey.data
  decide (40 ≤ cs.length) && decide (cs.length ≤ 60) && cs.all isAlnumC &&
    !(startsWithCI "test".data cs || startsWithCI "fake".data cs ||
      startsWithCI "demo".data cs || startsWithCI "sample".data cs) &&
    !("1234".data.isPrefixOf cs || "abcd".data.isPrefixOf cs ||
      "0000".data.isPrefixOf cs) &&
    !hasRun11 cs

/-- The persistent effects `login` can perform, in program order. -/
inductive LoginEffect where
  | storeKey (key : String)
  | removeKey
  | setWorkspace (id : String)
deriving DecidableEq

/-- `authCommands.login` with a key supplied via `--key`, as a function of
the outcomes the connectivity check (`testConnection`) and the workspace
listing would have.  The source stores the key, runs both calls inside a
`try` whose `catch` removes the key and re-throws, and sets the active
workspace when exactly one workspace exists. -/
def login (apiKey : String) (connResult : Except String User)
    (wsResult : Except String (List Workspace)) :
    List LoginEffect × Except String Unit :=
  if !isValidApiKey apiKey then ([], Except.error "Invalid API key format")
  else
    match connResult with
    | Except.error e =>
      ([LoginEffect.storeKey apiKey, LoginEffect.removeKey], Except.error e)
    | Except.ok _ =>
      match wsResult with
      | Except.error e =>
        ([LoginEffect.storeKey apiKey, LoginEffect.removeKey], Except.error e)
      | Except.ok [w] =>
        ([LoginEffect.storeKey apiKey, LoginEffect.setWorkspace w.id],
         Except.ok ())
      | Except.ok _ => ([LoginEffect.storeKey apiKey], Except.ok ())

/-- Whether, after a sequence of effects, a key remains persisted. -/
def keyPersisted (effects : List LoginEffect) : Bool :=
  effects.foldl
    (fun st e =>
      match e with
      | LoginEffect.storeKey _ => true
      | LoginEffect.removeKey => false
      | LoginEffect.setWorkspace _ => st)
    false

/-- C9: after storing a syntactically valid key, a failing connectivity
check removes the stored key (no invalid key remains persisted) and the
failure is reported; a successful check with exactly one workspace sets
that workspace as active and keeps the key. -/
theorem login_spec (apiKey : String) (connResult : Except String User)
    (wsResult : Except String (List Workspace))
    (hkey : isValidApiKey apiKey = true) :
    (∀ e, connResult = Except.error e →
      login apiKey connResult wsResult =
        ([LoginEffect.storeKey apiKey, LoginEffect.removeKey],
         Except.error e) ∧
      keyPersisted (login apiKey connResult wsResult).1 = false) ∧
    (∀ u w, connResult = Except.ok u → wsResult = Except.ok [w] →
      login apiKey connResult wsResult =
        ([LoginEffect.storeKey apiKey, LoginEffect.setWorkspace w.id],
         Except.ok ()) ∧
      keyPersisted (login apiKey connResult wsResult).1 = true) := by
  constructor
  · rintro e rfl
    unfold login
    rw [hkey]
    exact ⟨rfl, rfl⟩
  · rintro u w rfl rfl
    unfold login
    rw [hkey]
    exact ⟨rfl, rfl⟩

/-- Witness for C9 with a well-formed 40-character key. -/
theorem login_spec_witness :
    login "A1b2C3d4E5f6G7h8I9j0K1l2M3n4O5p6Q7r8S9t0"
        (Except.error "Authentication failed. Please check your API key.")
        (Except.ok []) =
      ([LoginEffect.storeKey "A1b2C3d4E5f6G7h8I9j0K1l2M3n4O5p6Q7r8S9t0",
        LoginEffect.removeKey],
       Except.error "Authentication failed. Please check your API key.") ∧
    login "A1b2C3d4E5f6G7h8I9j0K1l2M3n4O5p6Q7r8S9t0"
        (Except.ok ⟨"u1", "a@b.c", "Ann"⟩) (Except.ok [⟨"w1", "Main"⟩]) =
      ([LoginEffect.storeKey "A1b2C3d4E5f6G7h8I9j0K1l2M3n4O5p6Q7r8S9t0",
        LoginEffect.setWorkspace "w1"],
       Except.ok ()) :=
  ⟨((login_spec "A1b2C3d4E5f6G7h8I9j0K1l2M3n4O5p6Q7r8S9t0"
      (Except.error "Authentication failed. Please check your API key.")
      (Except.ok []) (by decide)).1
      "Authentication failed. Please check your API key." rfl).1,
   ((login_spec "A1b2C3d4E5f6G7h8I9j0K1l2M3n4O5p6Q7r8S9t0"
      (Except.ok ⟨"u1", "a@b.c", "Ann"⟩) (Except.ok [⟨"w1", "Main"⟩])
      (by decide)).2 ⟨"u1", "a@b.c", "Ann"⟩ ⟨"w1", "Main"⟩ rfl rfl).1⟩

end ClockifyCLI
